import Mathlib

/-!
Verification development for the smartSNI edge node (src/main.go).

The Go program is shallowly embedded: byte buffers are `List Nat` (each
element intended `< 256`), Go's `(value, error)` returns are `Except`
or `Option`, and the external library calls the program makes
(miekg/dns message packing, crypto/tls ClientHello sniffing, the
upstream HTTPS POST) are modelled by executable Lean functions that are
faithful to the library behaviour the program relies on.  Network
effects are made explicit: the upstream resolver is an oracle argument
and the number of upstream calls is returned alongside the response.
-/

namespace SmartSNI

/-! ## String helpers (models of Go strings.ToLower / strings.Contains) -/

/-- Model of Go `strings.ToLower` (ASCII case folding suffices for the
domain names handled here). -/
def lowerStr (s : String) : String := String.mk (s.data.map Char.toLower)

/-- Does `sub` occur as a contiguous sub-list of `s`?  Model of Go
`strings.Contains` on the character level. -/
def containsSub (sub : List Char) : List Char → Bool
  | [] => sub.isPrefixOf ([] : List Char)
  | c :: rest => sub.isPrefixOf (c :: rest) || containsSub sub rest

/-- Go `strings.Contains s sub`. -/
def strContains (s sub : String) : Bool := containsSub sub.data s.data

/-! ## Configuration (src/main.go `Config`)

Go's `map[string]string` is modelled as an association list; Go map
iteration order is unspecified, the list order stands for one such
order. -/

structure Config where
  host : String
  domains : List (String × String)

/-- src/main.go `findValueByKeyContains`: first entry whose key is a
case-insensitive substring of `substr` wins; `none` models the
`("", false)` return. -/
def findValueByKeyContains (m : List (String × String)) (substr : String) : Option String :=
  match m with
  | [] => none
  | (key, value) :: rest =>
    if strContains (lowerStr substr) (lowerStr key) then some value
    else findValueByKeyContains rest substr

/-! ## DNS wire model (model of the miekg/dns calls made by the program)

`Msg.unpack`/`Msg.pack` model `dns.Msg.Unpack`/`Pack` for uncompressed
messages (name-compression pointers and label lengths ≥ 64 are rejected
rather than followed; the witnesses below use only pointer-free
messages).  Header flags are kept as the raw 16-bit flags word, which
is exactly what `Unpack` reads and `Pack` writes back. -/

structure DNSHeader where
  id : Nat
  flags : Nat
deriving DecidableEq

structure DNSQuestion where
  name : String
  qtype : Nat
  qclass : Nat
deriving DecidableEq

structure DNSRR where
  name : String
  rtype : Nat
  rclass : Nat
  ttl : Nat
  rdata : List Nat
deriving DecidableEq

structure Msg where
  header : DNSHeader
  question : List DNSQuestion
  answer : List DNSRR
  ns : List DNSRR
  extra : List DNSRR
deriving DecidableEq

def read16 : List Nat → Except String (Nat × List Nat)
  | b0 :: b1 :: rest => .ok (256 * b0 + b1, rest)
  | _ => .error "overflow unpacking uint16"

def read32 : List Nat → Except String (Nat × List Nat)
  | b0 :: b1 :: b2 :: b3 :: rest => .ok (16777216 * b0 + 65536 * b1 + 256 * b2 + b3, rest)
  | _ => .error "overflow unpacking uint32"

/-- Parse the label sequence of a wire-format domain name.  The fuel
argument (one unit per consumed length byte) keeps the recursion
structural; `parseLabels` supplies enough fuel for any input. -/
def parseLabelsFuel : Nat → List Nat → Except String (List String × List Nat)
  | 0, _ => .error "domain name too long"
  | _ + 1, [] => .error "overflow unpacking domain name"
  | fuel + 1, n :: rest =>
    if n = 0 then .ok ([], rest)
    else if 64 ≤ n then .error "unsupported label length or compression pointer"
    else if rest.length < n then .error "overflow unpacking label"
    else
      match parseLabelsFuel fuel (rest.drop n) with
      | .error e => .error e
      | .ok (ls, r) => .ok (String.mk ((rest.take n).map Char.ofNat) :: ls, r)

def parseLabels (s : List Nat) : Except String (List String × List Nat) :=
  parseLabelsFuel (s.length + 1) s

/-- miekg/dns renders names fully qualified: every label is followed by
a dot, the root name is `"."`. -/
def nameFromLabels (ls : List String) : String :=
  if ls.isEmpty then "." else ls.foldl (fun acc l => acc ++ l ++ ".") ""

def parseName (s : List Nat) : Except String (String × List Nat) :=
  match parseLabels s with
  | .error e => .error e
  | .ok (ls, rest) => .ok (nameFromLabels ls, rest)

def parseQuestion (s : List Nat) : Except String (DNSQuestion × List Nat) := do
  let (name, r1) ← parseName s
  let (qtype, r2) ← read16 r1
  let (qclass, r3) ← read16 r2
  .ok ({ name := name, qtype := qtype, qclass := qclass }, r3)

def parseQuestions : Nat → List Nat → Except String (List DNSQuestion × List Nat)
  | 0, s => .ok ([], s)
  | n + 1, s => do
    let (q, r1) ← parseQuestion s
    let (qs, r2) ← parseQuestions n r1
    .ok (q :: qs, r2)

def parseRR (s : List Nat) : Except String (DNSRR × List Nat) := do
  let (name, r1) ← parseName s
  let (rtype, r2) ← read16 r1
  let (rclass, r3) ← read16 r2
  let (ttl, r4) ← read32 r3
  let (rdlen, r5) ← read16 r4
  if r5.length < rdlen then .error "overflow unpacking rdata"
  else .ok ({ name := name, rtype := rtype, rclass := rclass, ttl := ttl,
              rdata := r5.take rdlen }, r5.drop rdlen)

def parseRRs : Nat → List Nat → Except String (List DNSRR × List Nat)
  | 0, s => .ok ([], s)
  | n + 1, s => do
    let (rr, r1) ← parseRR s
    let (rrs, r2) ← parseRRs n r1
    .ok (rr :: rrs, r2)

/-- Model of `dns.Msg.Unpack` on a raw query buffer. -/
def Msg.unpack (query : List Nat) : Except String Msg :=
  if query.all (fun b => decide (b < 256)) then do
    let (id, r1) ← read16 query
    let (flags, r2) ← read16 r1
    let (qd, r3) ← read16 r2
    let (an, r4) ← read16 r3
    let (nsc, r5) ← read16 r4
    let (arc, r6) ← read16 r5
    let (qs, r7) ← parseQuestions qd r6
    let (ans, r8) ← parseRRs an r7
    let (nss, r9) ← parseRRs nsc r8
    let (ars, _) ← parseRRs arc r9
    .ok { header := { id := id, flags := flags },
          question := qs, answer := ans, ns := nss, extra := ars }
  else .error "not a byte buffer"

def write16 (v : Nat) : List Nat := [v / 256 % 256, v % 256]

def write32 (v : Nat) : List Nat :=
  [v / 16777216 % 256, v / 65536 % 256, v / 256 % 256, v % 256]

/-- Split a character list at the dots (model of interpreting a
presentation-format name label by label). -/
def splitOnDot : List Char → List (List Char)
  | [] => [[]]
  | c :: rest =>
    match splitOnDot rest with
    | [] => if c = '.' then [[], [c]] else [[c]]
    | h :: t => if c = '.' then [] :: h :: t else (c :: h) :: t

def packName (name : String) : List Nat :=
  let labels := (splitOnDot name.data).filter (fun l => !l.isEmpty)
  (labels.map (fun l => l.length :: l.map Char.toNat)).flatten ++ [0]

def packQuestion (q : DNSQuestion) : List Nat :=
  packName q.name ++ write16 q.qtype ++ write16 q.qclass

def packRR (rr : DNSRR) : List Nat :=
  packName rr.name ++ write16 rr.rtype ++ write16 rr.rclass ++
  write32 rr.ttl ++ write16 rr.rdata.length ++ rr.rdata

/-- Model of `dns.Msg.Pack` (no name compression, as for small local
answers). -/
def Msg.pack (m : Msg) : List Nat :=
  write16 m.header.id ++ write16 m.header.flags ++
  write16 m.question.length ++ write16 m.answer.length ++
  write16 m.ns.length ++ write16 m.extra.length ++
  (m.question.map packQuestion).flatten ++ (m.answer.map packRR).flatten ++
  (m.ns.map packRR).flatten ++ (m.extra.map packRR).flatten

/-! ## `dns.NewRR(domain ++ " A " ++ ip)` model -/

def digitsVal (l : List Char) : Nat := l.foldl (fun acc c => 10 * acc + (c.toNat - 48)) 0

/-- One dotted-quad octet, as accepted by Go `net.ParseIP`: 1 to 3
digits, no leading zero, value at most 255. -/
def ipv4OctetOk (l : List Char) : Bool :=
  !l.isEmpty && decide (l.length ≤ 3) && l.all (fun c => c.isDigit) &&
  (decide (l.length = 1) || !(l.headD '0' = '0' : Bool)) && decide (digitsVal l ≤ 255)

/-- Model of Go `net.ParseIP` restricted to IPv4 dotted-quad literals
(the only form the zone string `"name A ip"` accepts). -/
def parseIPv4 (s : String) : Option (List Nat) :=
  let parts := splitOnDot s.data
  if decide (parts.length = 4) && parts.all ipv4OctetOk then some (parts.map digitsVal)
  else none

def endsWithDot (s : String) : Bool :=
  match s.data.getLast? with
  | some c => c = '.'
  | none => false

/-- miekg/dns fully qualifies an owner name when parsing a zone string. -/
def fqdn (s : String) : String := if endsWithDot s then s else s ++ "."

/-- Model of `dns.NewRR (domain ++ " A " ++ ip)` as used on line 63:
an `A` record (type 1, class IN, default TTL 3600) whose rdata is the
parsed IPv4 address; an unparsable address is an error.  (Malformed
owner names are not modelled; the names reaching this call come out of
`Msg.unpack`.) -/
def dnsNewRR_A (domain ip : String) : Except String DNSRR :=
  match parseIPv4 ip with
  | some octets => .ok { name := fqdn domain, rtype := 1, rclass := 1, ttl := 3600,
                         rdata := octets }
  | none => .error "bad A record value"

/-! ## `processDNSQuery` (src/main.go lines 50-78)

The upstream HTTPS POST to `https://1.1.1.1/dns-query` plus
`io.ReadAll` of its body is modelled by an oracle
`upstream : List Nat → Except String (List Nat)`; the result records
how many times the oracle was consulted, so that "no network call" is
expressible. -/

abbrev Upstream := List Nat → Except String (List Nat)

structure ResolveResult where
  response : Except String (List Nat)
  upstreamCalls : Nat

def processDNSQuery (cfg : Config) (upstream : Upstream) (query : List Nat) : ResolveResult :=
  match Msg.unpack query with
  | .error e => ⟨.error e, 0⟩
  | .ok msg =>
    match msg.question with
    | [] => ⟨.error "no DNS question found in the request", 0⟩
    | q :: _ =>
      match findValueByKeyContains cfg.domains q.name with
      | some ip =>
        match dnsNewRR_A q.name ip with
        | .error e => ⟨.error e, 0⟩
        | .ok rr => ⟨.ok (Msg.pack { msg with answer := msg.answer ++ [rr] }), 0⟩
      | none => ⟨upstream query, 1⟩

/-! ## DoH front-end (src/main.go `handleDoHRequest`, lines 81-103)

The handler's external inputs are made explicit: `allow` is the
`limiter.Allow()` result and `requestBody` the `io.ReadAll(r.Body)`
result.  `httpError` models Go `http.Error`, which writes the message
followed by a newline as a `text/plain` body with the given status. -/

inductive HTTPBody where
  | text (s : String)
  | dns (bytes : List Nat)
deriving DecidableEq

def HTTPBody.isEmptyBody : HTTPBody → Bool
  | .text s => s.isEmpty
  | .dns l => l.isEmpty

structure HTTPResponse where
  status : Nat
  contentType : String
  body : HTTPBody
deriving DecidableEq

/-- Model of Go `http.Error w msg code`. -/
def httpError (msg : String) (code : Nat) : HTTPResponse :=
  { status := code, contentType := "text/plain; charset=utf-8", body := .text (msg ++ "\n") }

def handleDoHRequest (cfg : Config) (upstream : Upstream) (allow : Bool)
    (requestBody : Except String (List Nat)) : HTTPResponse :=
  if !allow then httpError "Rate limit exceeded" 429
  else
    match requestBody with
    | .error _ => httpError "Failed to read request body" 500
    | .ok body =>
      match (processDNSQuery cfg upstream body).response with
      | .error _ => httpError "Failed to pack DNS response" 500
      | .ok dnsResponse =>
        { status := 200, contentType := "application/dns-message", body := .dns dnsResponse }

/-! ## DoT framing (src/main.go `handleDoTConnection`, lines 140-155)

After `processDNSQuery` succeeds, the handler executes
`binary.BigEndian.PutUint16(responseLength, uint16(len(response)))` and
writes the two length bytes followed by the payload.  `uint16OfNat`
models the Go `uint16(...)` conversion (truncation mod 2^16);
`write16` is exactly `PutUint16`. -/

def uint16OfNat (n : Nat) : Nat := n % 65536

/-- The bytes `handleDoTConnection` writes back for a successful
response payload: 2-byte big-endian length prefix, then the payload.
There is no other branch - the code frames every successful payload. -/
def dotResponseFrame (response : List Nat) : List Nat :=
  write16 (uint16OfNat response.length) ++ response

/-- `binary.BigEndian.Uint16` applied to the first two bytes of a
frame, as the peer's length-prefix read decodes it. -/
def frameDeclaredLen (frame : List Nat) : Nat :=
  256 * frame.headD 0 + (frame.drop 1).headD 0

/-! ## SNI backend selection (src/main.go `handleConnection`, lines 273-281) -/

/-- Model of Go `net.JoinHostPort`. -/
def joinHostPort (host port : String) : String :=
  if host.data.contains ':' then "[" ++ host ++ "]:" ++ port else host ++ ":" ++ port

/-- Lines 273-279: lower-case the sniffed server name; if it equals the
configured host, join it with port 8443, otherwise with port 443.  The
result is the address passed to `net.DialTimeout`. -/
def selectBackendAddr (cfg : Config) (serverName : String) : String :=
  let targetHost := lowerStr serverName
  if targetHost = cfg.host then joinHostPort targetHost "8443"
  else joinHostPort targetHost "443"

/-! ## ClientHello peeking and the relay byte stream

`io.TeeReader(reader, peekedBytes)` tees every byte the TLS layer reads
into the side buffer.  The sniffing handshake performs some sequence of
reads of sizes `sizes` (arbitrary); `teeReads` returns the tee buffer
contents and the unread remainder of the client stream.  The
client-to-backend goroutine (lines 296-301) then writes
`io.Copy(backendConn, clientHelloBytes)` followed by
`io.Copy(backendConn, clientConn)`: buffer first, live bytes second. -/

def teeReads : List Nat → List Nat → List Nat × List Nat
  | stream, [] => ([], stream)
  | stream, k :: ks =>
    (stream.take k ++ (teeReads (stream.drop k) ks).1, (teeReads (stream.drop k) ks).2)

/-- The byte sequence written to the backend: the replayed peek buffer
strictly first, then the live client bytes. -/
def relayClientToBackend (peeked live : List Nat) : List Nat := peeked ++ live

/-! ## readOnlyConn (src/main.go lines 208-224) -/

inductive NetErr where
  | errClosedPipe
deriving DecidableEq

structure readOnlyConn where
  reader : List Nat

/-- `Read` passes through to the wrapped reader. -/
def readOnlyConn.read (c : readOnlyConn) (n : Nat) : List Nat × readOnlyConn :=
  (c.reader.take n, ⟨c.reader.drop n⟩)

/-- `Write` always reports zero bytes written and `io.ErrClosedPipe`. -/
def readOnlyConn.write (_c : readOnlyConn) (_p : List Nat) : Nat × Option NetErr :=
  (0, some NetErr.errClosedPipe)

def readOnlyConn.setDeadline (_c : readOnlyConn) (_t : Nat) : Option NetErr := none

def readOnlyConn.setReadDeadline (_c : readOnlyConn) (_t : Nat) : Option NetErr := none

def readOnlyConn.setWriteDeadline (_c : readOnlyConn) (_t : Nat) : Option NetErr := none

/-! ## readClientHello (src/main.go lines 226-252)

The function does `wg.Add(1)`, drives a server-role TLS handshake whose
`GetConfigForClient` hook captures the hello and calls `wg.Done()`, and
then calls `wg.Wait()` unconditionally.  crypto/tls calls the hook
exactly when a complete, well-formed ClientHello has been read from the
stream; if the stream ends, errors, or holds a malformed record first,
`Handshake` returns an error without ever invoking the hook.

`tlsHandshakeFiresHook` is a simplified executable model of that
condition: a handshake-type record (content type 22) whose record body
is present and contains a complete handshake message of type 1
(ClientHello).  The empty stream in particular fires no hook. -/

def tlsHandshakeFiresHook (stream : List Nat) : Bool :=
  match stream with
  | 22 :: _v1 :: _v2 :: l1 :: l2 :: rest =>
    let recLen := 256 * l1 + l2
    (match rest.take recLen with
     | 1 :: h1 :: h2 :: h3 :: body =>
       decide (recLen ≤ rest.length) && decide (65536 * h1 + 256 * h2 + h3 ≤ body.length)
     | _ => false)
  | _ => false

/-- The two facts the rest of `readClientHello` depends on after
`tlsConn.Handshake()` returns: whether `hello` was captured (the hook
assigned it) and the WaitGroup counter (1 after `wg.Add(1)`, decreased
only by the hook's `wg.Done()`). -/
structure SniffState where
  helloCaptured : Bool
  wgCount : Nat

def sniffStateAfterHandshake (stream : List Nat) : SniffState :=
  if tlsHandshakeFiresHook stream then { helloCaptured := true, wgCount := 0 }
  else { helloCaptured := false, wgCount := 1 }

/-- `readClientHello` after the handshake: `wg.Wait()` returns control
only if the counter is zero; a nonzero counter blocks the goroutine
forever, modelled as `none`.  `some b` means the function returns, with
`b` telling whether a non-nil hello is handed to the caller. -/
def readClientHello (stream : List Nat) : Option Bool :=
  let s := sniffStateAfterHandshake stream
  if s.wgCount = 0 then some s.helloCaptured else none

/-! ## Concrete data used by the witnesses -/

def exCfg : Config := ⟨"node.example.org", [("example.com", "10.0.0.5")]⟩

def exCfgEmptyKey : Config := ⟨"node.example.org", [("", "9.9.9.9")]⟩

def exUpstream : Upstream := fun _ => .error "no network"

def exUpstreamOk : Upstream := fun _ => .ok [0, 7, 129, 128]

/-- A wire-format query for `foo.example.com.` (id 0x1234, flags 0x0100,
one question, type A, class IN). -/
def exQuery : List Nat :=
  [18, 52, 1, 0, 0, 1, 0, 0, 0, 0, 0, 0,
   3, 102, 111, 111, 7, 101, 120, 97, 109, 112, 108, 101, 3, 99, 111, 109, 0, 0, 1, 0, 1]

def exMsg : Msg := ⟨⟨4660, 256⟩, [⟨"foo.example.com.", 1, 1⟩], [], [], []⟩

/-- A wire-format query for `other.org.` (id 7, flags 0x0100). -/
def exQuery2 : List Nat :=
  [0, 7, 1, 0, 0, 1, 0, 0, 0, 0, 0, 0,
   5, 111, 116, 104, 101, 114, 3, 111, 114, 103, 0, 0, 1, 0, 1]

def exMsg2 : Msg := ⟨⟨7, 256⟩, [⟨"other.org.", 1, 1⟩], [], [], []⟩

/-! ## Helper lemmas -/

theorem containsSub_nil (l : List Char) : containsSub [] l = true := by
  cases l <;> simp [containsSub, List.isPrefixOf]

theorem lowerStr_empty : lowerStr "" = "" := rfl

theorem strContains_empty (s : String) : strContains s "" = true :=
  containsSub_nil s.data

theorem findValueByKeyContains_isSome_of_mem_empty_key
    (m : List (String × String)) (v s : String) (hmem : ("", v) ∈ m) :
    (findValueByKeyContains m s).isSome := by
  induction m with
  | nil => cases hmem
  | cons kv rest ih =>
    obtain ⟨key, value⟩ := kv
    by_cases hc : strContains (lowerStr s) (lowerStr key) = true
    · simp [findValueByKeyContains, hc]
    · have hne : key ≠ "" := by
        intro hk
        subst hk
        exact hc (by simpa [lowerStr_empty] using strContains_empty (lowerStr s))
      rcases List.mem_cons.mp hmem with h | h
      · exact absurd (congrArg Prod.fst h.symm) hne
      · simpa [findValueByKeyContains, hc] using ih h

theorem findValueByKeyContains_mem (m : List (String × String)) (s w : String)
    (h : findValueByKeyContains m s = some w) : ∃ k, (k, w) ∈ m := by
  induction m with
  | nil => simp [findValueByKeyContains] at h
  | cons kv rest ih =>
    obtain ⟨key, value⟩ := kv
    by_cases hc : strContains (lowerStr s) (lowerStr key) = true
    · simp [findValueByKeyContains, hc] at h
      exact ⟨key, by simp [h]⟩
    · simp [findValueByKeyContains, hc] at h
      obtain ⟨k, hk⟩ := ih h
      exact ⟨k, List.mem_cons_of_mem _ hk⟩

/-! ## Claims about the DNS resolver -/

/-- Claim C1: for every binary DNS query that unpacks successfully and
has at least one question, if the (lower-cased) name of the first
question contains some configured override key (lower-cased) as a
substring - the first matching entry in iteration order winning, which
is what `findValueByKeyContains` returns - then `processDNSQuery`
returns the locally packed response holding the single synthesized
address record for the queried name with that key's configured address,
and consults the upstream resolver zero times. -/
theorem c1_override_local_answer
    (cfg : Config) (upstream : Upstream) (query : List Nat)
    (msg : Msg) (q : DNSQuestion) (qs : List DNSQuestion) (ip : String) (octets : List Nat)
    (hu : Msg.unpack query = .ok msg)
    (hq : msg.question = q :: qs)
    (hans : msg.answer = [])
    (hf : findValueByKeyContains cfg.domains q.name = some ip)
    (hip : parseIPv4 ip = some octets) :
    (processDNSQuery cfg upstream query).response =
      .ok (Msg.pack { msg with answer := [⟨fqdn q.name, 1, 1, 3600, octets⟩] }) ∧
    (processDNSQuery cfg upstream query).upstreamCalls = 0 := by
  constructor <;> simp [processDNSQuery, hu, hq, hf, dnsNewRR_A, hip, hans]

/-- Witness for C1 at a concrete query for `foo.example.com.` with the
override table `{"example.com": "10.0.0.5"}`. -/
theorem c1_witness :
    Msg.unpack exQuery = .ok exMsg ∧
    exMsg.question = [⟨"foo.example.com.", 1, 1⟩] ∧
    exMsg.answer = [] ∧
    findValueByKeyContains exCfg.domains "foo.example.com." = some "10.0.0.5" ∧
    parseIPv4 "10.0.0.5" = some [10, 0, 0, 5] ∧
    (processDNSQuery exCfg exUpstream exQuery).response =
      .ok (Msg.pack { exMsg with answer := [⟨fqdn "foo.example.com.", 1, 1, 3600, [10, 0, 0, 5]⟩] }) ∧
    (processDNSQuery exCfg exUpstream exQuery).upstreamCalls = 0 := by
  have h := c1_override_local_answer exCfg exUpstream exQuery exMsg
    ⟨"foo.example.com.", 1, 1⟩ [] "10.0.0.5" [10, 0, 0, 5] rfl rfl rfl (by decide) (by decide)
  exact ⟨rfl, rfl, rfl, by decide, by decide, h.1, h.2⟩

/-- Claim C6: for every query whose first question's name matches no
configured override key, `processDNSQuery` hands the original query
bytes, unmodified, to the upstream oracle exactly once and returns
whatever that oracle returns - the response bytes verbatim on success,
the failure verbatim (no retry) on error. -/
theorem c6_no_match_pass_through
    (cfg : Config) (upstream : Upstream) (query : List Nat)
    (msg : Msg) (q : DNSQuestion) (qs : List DNSQuestion)
    (hu : Msg.unpack query = .ok msg)
    (hq : msg.question = q :: qs)
    (hf : findValueByKeyContains cfg.domains q.name = none) :
    (processDNSQuery cfg upstream query).response = upstream query ∧
    (processDNSQuery cfg upstream query).upstreamCalls = 1 := by
  constructor <;> simp [processDNSQuery, hu, hq, hf]

/-- Witness for C6 at a concrete query for `other.org.` that matches no
override key: the upstream oracle's bytes come back verbatim. -/
theorem c6_witness :
    Msg.unpack exQuery2 = .ok exMsg2 ∧
    exMsg2.question = [⟨"other.org.", 1, 1⟩] ∧
    findValueByKeyContains exCfg.domains "other.org." = none ∧
    (processDNSQuery exCfg exUpstreamOk exQuery2).response = .ok [0, 7, 129, 128] ∧
    (processDNSQuery exCfg exUpstreamOk exQuery2).upstreamCalls = 1 := by
  have h := c6_no_match_pass_through exCfg exUpstreamOk exQuery2 exMsg2
    ⟨"other.org.", 1, 1⟩ [] rfl rfl (by decide)
  exact ⟨rfl, rfl, by decide, h.1, h.2⟩

/-- Claim C9: if the override table has an entry with the empty string
as key, then every query that unpacks with at least one question
matches (`findValueByKeyContains` returns `some`), the upstream
resolver is never consulted, and - whenever the configured values are
address literals, as the override table holds by design - the query is
answered locally with a packed response. -/
theorem c9_empty_key_never_upstream
    (cfg : Config) (upstream : Upstream) (query : List Nat) (msg : Msg)
    (q : DNSQuestion) (qs : List DNSQuestion) (v : String)
    (hmem : ("", v) ∈ cfg.domains)
    (hu : Msg.unpack query = .ok msg)
    (hq : msg.question = q :: qs) :
    (∃ w, findValueByKeyContains cfg.domains q.name = some w) ∧
    (processDNSQuery cfg upstream query).upstreamCalls = 0 ∧
    ((∀ kv ∈ cfg.domains, (parseIPv4 kv.2).isSome) →
      ∃ out, (processDNSQuery cfg upstream query).response = .ok out) := by
  have hsome := findValueByKeyContains_isSome_of_mem_empty_key cfg.domains v q.name hmem
  obtain ⟨w, hw⟩ := Option.isSome_iff_exists.mp hsome
  refine ⟨⟨w, hw⟩, ?_, ?_⟩
  · cases hrr : dnsNewRR_A q.name w <;> simp [processDNSQuery, hu, hq, hw, hrr]
  · intro hvalid
    obtain ⟨k, hk⟩ := findValueByKeyContains_mem cfg.domains q.name w hw
    have hv := hvalid (k, w) hk
    obtain ⟨octets, hoct⟩ := Option.isSome_iff_exists.mp hv
    refine ⟨Msg.pack { msg with answer := msg.answer ++ [⟨fqdn q.name, 1, 1, 3600, octets⟩] }, ?_⟩
    simp [processDNSQuery, hu, hq, hw, dnsNewRR_A, hoct]

/-- Witness for C9: with the table `{"": "9.9.9.9"}` the concrete query
for `foo.example.com.` matches, is answered locally, and never goes
upstream. -/
theorem c9_witness :
    (∃ w, findValueByKeyContains exCfgEmptyKey.domains "foo.example.com." = some w) ∧
    (processDNSQuery exCfgEmptyKey exUpstream exQuery).upstreamCalls = 0 ∧
    ∃ out, (processDNSQuery exCfgEmptyKey exUpstream exQuery).response = .ok out := by
  have h := c9_empty_key_never_upstream exCfgEmptyKey exUpstream exQuery exMsg
    ⟨"foo.example.com.", 1, 1⟩ [] "9.9.9.9" (by decide) rfl rfl
  exact ⟨h.1, h.2.1, h.2.2 (by decide)⟩

/-- Claim C10: for every locally overridden query, the returned bytes
are the original message re-packed with one address record appended to
its answer section; the header - id and the whole 16-bit flags word,
the query/response flag included - is carried into the response
unchanged, so the packed bytes start with the query's own id and flags
words. -/
theorem c10_header_preserved
    (cfg : Config) (upstream : Upstream) (query : List Nat)
    (msg : Msg) (q : DNSQuestion) (qs : List DNSQuestion) (ip : String) (octets : List Nat)
    (hu : Msg.unpack query = .ok msg)
    (hq : msg.question = q :: qs)
    (hf : findValueByKeyContains cfg.domains q.name = some ip)
    (hip : parseIPv4 ip = some octets) :
    (processDNSQuery cfg upstream query).response =
      .ok (Msg.pack { header := msg.header, question := msg.question,
                      answer := msg.answer ++ [⟨fqdn q.name, 1, 1, 3600, octets⟩],
                      ns := msg.ns, extra := msg.extra }) ∧
    ∃ rest, (processDNSQuery cfg upstream query).response =
      .ok (write16 msg.header.id ++ (write16 msg.header.flags ++ rest)) := by
  have hmain : (processDNSQuery cfg upstream query).response =
      .ok (Msg.pack { header := msg.header, question := msg.question,
                      answer := msg.answer ++ [⟨fqdn q.name, 1, 1, 3600, octets⟩],
                      ns := msg.ns, extra := msg.extra }) := by
    simp [processDNSQuery, hu, hq, hf, dnsNewRR_A, hip]
  refine ⟨hmain,
    write16 msg.question.length ++
      (write16 (msg.answer ++ [(⟨fqdn q.name, 1, 1, 3600, octets⟩ : DNSRR)]).length ++
        (write16 msg.ns.length ++
          (write16 msg.extra.length ++
            ((msg.question.map packQuestion).flatten ++
              (((msg.answer ++ [(⟨fqdn q.name, 1, 1, 3600, octets⟩ : DNSRR)]).map packRR).flatten ++
                ((msg.ns.map packRR).flatten ++ (msg.extra.map packRR).flatten)))))), ?_⟩
  rw [hmain]
  simp [Msg.pack, List.append_assoc]

/-- Witness for C10 at the concrete overridden query: the response
starts with the query's id and flags words. -/
theorem c10_witness :
    (processDNSQuery exCfg exUpstream exQuery).response =
      .ok (Msg.pack { header := exMsg.header, question := exMsg.question,
                      answer := exMsg.answer ++ [⟨fqdn "foo.example.com.", 1, 1, 3600, [10, 0, 0, 5]⟩],
                      ns := exMsg.ns, extra := exMsg.extra }) ∧
    ∃ rest, (processDNSQuery exCfg exUpstream exQuery).response =
      .ok (write16 4660 ++ (write16 256 ++ rest)) := by
  have h := c10_header_preserved exCfg exUpstream exQuery exMsg
    ⟨"foo.example.com.", 1, 1⟩ [] "10.0.0.5" [10, 0, 0, 5] rfl rfl (by decide) (by decide)
  exact ⟨h.1, h.2⟩

/-! ## Claims about the SNI router -/

/-- Claim C2 is false on the code: when the sniffed server name equals
the configured own host, `handleConnection` dials
`net.JoinHostPort(targetHost, "8443")` where `targetHost` is the
lower-cased server name itself - not `127.0.0.1`.  At host
`node.example.org` the dialed address is `node.example.org:8443`. -/
theorem c2_counterexample :
    selectBackendAddr ⟨"node.example.org", []⟩ "node.example.org" = "node.example.org:8443" ∧
    "node.example.org:8443" ≠ "127.0.0.1:8443" := by
  constructor
  · decide
  · decide

/-- Claim C2 as amended: a server name equal (after lower-casing) to
the configured own host is dialed at that same host name on port 8443;
every other server name is dialed (lower-cased) on port 443. -/
theorem c2_amended (cfg : Config) (serverName : String) :
    (lowerStr serverName = cfg.host →
      selectBackendAddr cfg serverName = joinHostPort cfg.host "8443") ∧
    (lowerStr serverName ≠ cfg.host →
      selectBackendAddr cfg serverName = joinHostPort (lowerStr serverName) "443") := by
  constructor <;> intro h <;> simp [selectBackendAddr, h]

/-- Witness for the amended C2 at concrete host and server names. -/
theorem c2_amended_witness :
    lowerStr "Node.Example.Org" = "node.example.org" ∧
    selectBackendAddr ⟨"node.example.org", []⟩ "Node.Example.Org" =
      joinHostPort "node.example.org" "8443" ∧
    selectBackendAddr ⟨"node.example.org", []⟩ "other.org" =
      joinHostPort "other.org" "443" := by
  refine ⟨by decide, ?_, ?_⟩
  · exact (c2_amended ⟨"node.example.org", []⟩ "Node.Example.Org").1 (by decide)
  · exact (c2_amended ⟨"node.example.org", []⟩ "other.org").2 (by decide)

/-- Claim C3: for every client stream and every sequence of read sizes
the sniffing handshake performs through the tee, the bytes the relay
writes to the backend - tee buffer first, then the remaining live
bytes - equal the client's original byte stream, byte for byte. -/
theorem c3_relay_preserves_stream (stream sizes : List Nat) :
    relayClientToBackend (teeReads stream sizes).1 (teeReads stream sizes).2 = stream := by
  induction sizes generalizing stream with
  | nil => simp [teeReads, relayClientToBackend]
  | cons k ks ih =>
    simp only [teeReads, relayClientToBackend] at ih ⊢
    rw [List.append_assoc, ih, List.take_append_drop]

/-! ## Claims about the DoT framing -/

/-- Claim C4 is false on the code for oversized payloads: a 65536-byte
response is framed anyway - `uint16(len(response))` truncates, the
written length prefix decodes to 0, not 65536, and the whole payload
still follows the prefix; no error path exists. -/
theorem c4_counterexample :
    frameDeclaredLen (dotResponseFrame (List.replicate 65536 0)) = 0 ∧
    (List.replicate 65536 (0 : Nat)).length = 65536 ∧
    (dotResponseFrame (List.replicate 65536 0)).drop 2 = List.replicate 65536 (0 : Nat) := by
  have hlen : (List.replicate 65536 (0 : Nat)).length = 65536 := by
    rw [List.length_replicate]
  have hframe : dotResponseFrame (List.replicate 65536 0) =
      0 :: 0 :: List.replicate 65536 0 := by
    simp only [dotResponseFrame]
    rw [hlen]
    rfl
  refine ⟨?_, hlen, ?_⟩
  · rw [hframe]; rfl
  · rw [hframe]; rfl

/-- Claim C4 as amended: the two bytes written before the payload
decode big-endian to the payload length reduced mod 2^16 - hence to
exactly `L` whenever `L ≤ 65535` - and the payload always follows the
prefix; an over-long response is framed with the truncated length
rather than treated as an error. -/
theorem c4_amended (r : List Nat) :
    frameDeclaredLen (dotResponseFrame r) = r.length % 65536 ∧
    (dotResponseFrame r).drop 2 = r ∧
    (r.length ≤ 65535 → frameDeclaredLen (dotResponseFrame r) = r.length) := by
  have hframe : dotResponseFrame r =
      r.length % 65536 / 256 % 256 :: r.length % 65536 % 256 :: r := by
    simp [dotResponseFrame, uint16OfNat, write16]
  refine ⟨?_, ?_, ?_⟩
  · rw [hframe]; simp only [frameDeclaredLen, List.headD_cons, List.drop_succ_cons,
      List.drop_zero]; omega
  · rw [hframe]; rfl
  · intro h
    rw [hframe]
    simp only [frameDeclaredLen, List.headD_cons, List.drop_succ_cons, List.drop_zero]
    omega

/-- Witness for the amended C4 at a concrete 3-byte payload. -/
theorem c4_amended_witness :
    frameDeclaredLen (dotResponseFrame [7, 8, 9]) = 3 ∧
    (dotResponseFrame [7, 8, 9]).drop 2 = [7, 8, 9] := by
  have h := c4_amended [7, 8, 9]
  exact ⟨h.2.2 (by decide), h.2.1⟩

/-! ## Claim about readClientHello's failure path -/

/-- Claim C5 describes the intended behaviour, but the code has a bug:
when the stream ends (or errors, or holds a malformed record) before a
complete ClientHello, `GetConfigForClient` never fires, so `wg.Done()`
is never called and the unconditional `wg.Wait()` blocks forever -
`readClientHello` never returns to its caller and the
`if hello == nil` failure return is unreachable.  On the empty stream
(client closes immediately) the model blocks (`none`); on a stream
holding a complete ClientHello the hook fires and the captured hello is
returned. -/
theorem c5_eof_blocks_forever :
    tlsHandshakeFiresHook [] = false ∧
    readClientHello [] = none ∧
    readClientHello [22, 3, 1, 0, 4, 1, 0, 0, 0] = some true :=
  ⟨rfl, rfl, rfl⟩

/-! ## Claims about the DoH handler -/

/-- Claim C7 is false in one detail: on rate-limit denial the handler
calls `http.Error`, which does write a body - the text
`"Rate limit exceeded"` plus a newline - so the 429 response is not
body-less. -/
theorem c7_counterexample :
    (handleDoHRequest exCfg exUpstream false (.ok [])).status = 429 ∧
    (handleDoHRequest exCfg exUpstream false (.ok [])).body = .text "Rate limit exceeded\n" ∧
    HTTPBody.isEmptyBody (handleDoHRequest exCfg exUpstream false (.ok [])).body = false := by
  refine ⟨rfl, ?_, ?_⟩ <;> decide

/-- Claim C7 as amended: a denied request gets status 429 with the
plain-text message `"Rate limit exceeded"` as body; a body-read
failure gets 500 with `"Failed to read request body"`; a resolver
failure gets 500 with `"Failed to pack DNS response"`; otherwise the
resolver's bytes are returned with status 200 and the DNS-message
content type. -/
theorem c7_amended (cfg : Config) (upstream : Upstream) (allow : Bool)
    (requestBody : Except String (List Nat)) :
    (allow = false →
      handleDoHRequest cfg upstream allow requestBody = httpError "Rate limit exceeded" 429) ∧
    (allow = true → ∀ e, requestBody = .error e →
      handleDoHRequest cfg upstream allow requestBody = httpError "Failed to read request body" 500) ∧
    (allow = true → ∀ body e, requestBody = .ok body →
      (processDNSQuery cfg upstream body).response = .error e →
      handleDoHRequest cfg upstream allow requestBody = httpError "Failed to pack DNS response" 500) ∧
    (allow = true → ∀ body out, requestBody = .ok body →
      (processDNSQuery cfg upstream body).response = .ok out →
      handleDoHRequest cfg upstream allow requestBody =
        { status := 200, contentType := "application/dns-message", body := .dns out }) := by
  refine ⟨?_, ?_, ?_, ?_⟩
  · intro h; subst h; rfl
  · intro h e hb; subst h; subst hb; rfl
  · intro h body e hb hr; subst h; subst hb; simp [handleDoHRequest, hr]
  · intro h body out hb hr; subst h; subst hb; simp [handleDoHRequest, hr]

/-- Witness for the amended C7: the three outcome shapes at concrete
inputs (denial, body-read failure, successful resolution). -/
theorem c7_amended_witness :
    handleDoHRequest exCfg exUpstream false (.ok []) = httpError "Rate limit exceeded" 429 ∧
    handleDoHRequest exCfg exUpstream true (.error "boom") =
      httpError "Failed to read request body" 500 ∧
    handleDoHRequest exCfg exUpstreamOk true (.ok exQuery2) =
      { status := 200, contentType := "application/dns-message", body := .dns [0, 7, 129, 128] } := by
  refine ⟨(c7_amended exCfg exUpstream false (.ok [])).1 rfl,
    (c7_amended exCfg exUpstream true (.error "boom")).2.1 rfl "boom" rfl,
    (c7_amended exCfg exUpstreamOk true (.ok exQuery2)).2.2.2 rfl exQuery2 [0, 7, 129, 128] rfl rfl⟩

/-! ## Claim about the read-only duplex adapter -/

/-- Claim C8: the read-only adapter never sends bytes back to the
client - its write reports zero bytes written and the closed-pipe
failure for every input - and each of the three deadline setters is a
no-op reporting success (`nil` error). -/
theorem c8_read_only_conn (c : readOnlyConn) (p : List Nat) (t : Nat) :
    readOnlyConn.write c p = (0, some NetErr.errClosedPipe) ∧
    (readOnlyConn.write c p).1 = 0 ∧
    readOnlyConn.setDeadline c t = none ∧
    readOnlyConn.setReadDeadline c t = none ∧
    readOnlyConn.setWriteDeadline c t = none :=
  ⟨rfl, rfl, rfl, rfl, rfl⟩

end SmartSNI
